import Mathlib

/-!
Verification of the ECU disable/verify workflow of `opendbc/car/disable_ecu.py`.

The development shallowly embeds the two functions of that module:

* `_verify_ecu_silence` becomes `verify_ecu_silence`, a polling loop over a
  discrete clock.  One clock tick is one `check_interval` (0.02 s), so the
  quiet period `silence_duration` (0.3 s) is 15 ticks and the `timeout`
  argument is given in ticks.  Each loop iteration is modelled as
  instantaneous (the poll happens at the current tick, the sleep advances the
  clock by one tick), which is the idealisation the source's wall-clock
  polling converges to.  The receive callback is modelled as a function from
  the poll's tick to the batch of packets it returns.

* `disable_ecu` becomes a fold over per-attempt environments.  The injected
  collaborators (the ISO-TP query engine, the silence verifier and the sleep
  call) are modelled by an `AttemptEnv` per retry iteration recording how each
  stage behaves: a query either raises or returns a response map, the
  verifier either raises or completes with a boolean, the sleep either raises
  or completes.  The Python `try`/`except` around the attempt body is part of
  the translation: a raising stage makes the attempt fail and the loop
  continue.  Submissions and waits are recorded in an event trace so that
  counting and ordering properties can be stated.
-/

/-- One received CAN frame, with its source bus and arbitration address,
as accessed by `_verify_ecu_silence` (`msg.src`, `msg.address`). -/
structure CanMsg where
  src : Nat
  address : Nat
deriving DecidableEq

/-- Quiet period required by `_verify_ecu_silence` (`silence_duration = 0.3`),
measured in ticks of `check_interval = 0.02` seconds: 15 ticks. -/
def silence_duration_ticks : Nat := 15

/-- Scan of one `can_recv()` batch: true iff some frame has `msg.src == bus`
and `msg.address in addrs` (the inner double loop of `_verify_ecu_silence`;
the early `break` is behaviourally `List.any`). -/
def messageSeen (bus : Nat) (addrs : List Nat) (packets : List (List CanMsg)) : Bool :=
  packets.any fun pkt => pkt.any fun msg => msg.src == bus && addrs.contains msg.address

/-- The `while time.monotonic() - start_time < timeout` loop of
`_verify_ecu_silence`.  `fuel` is the number of remaining ticks before the
timeout (the guard holds iff `fuel > 0`), `n` is the current tick and `last`
is `last_message_time` in ticks.  Each iteration polls `recv n`, updates
`last`, returns true if the quiet period has elapsed, and otherwise sleeps
one tick. -/
def verifySilenceAux (recv : Nat → List (List CanMsg)) (bus : Nat) (addrs : List Nat) :
    Nat → Nat → Nat → Bool
  | 0, _, _ => false
  | fuel + 1, n, last =>
    let last' := if messageSeen bus addrs (recv n) then n else last
    if silence_duration_ticks ≤ n - last' then true
    else verifySilenceAux recv bus addrs fuel (n + 1) last'

/-- Embedding of `_verify_ecu_silence(can_recv, bus, addrs, timeout)`:
`start_time` is tick 0, `last_message_time` starts at `start_time`, and the
loop runs while fewer than `timeout` ticks have elapsed. -/
def verify_ecu_silence (recv : Nat → List (List CanMsg)) (bus : Nat) (addrs : List Nat)
    (timeout : Nat) : Bool :=
  verifySilenceAux recv bus addrs timeout 0 0

/-- Index of the latest poll `≤ n` at which a matching frame was seen, or 0
when none was (matching the initialisation `last_message_time = start_time`). -/
def lastSeenLe (seenAt : Nat → Bool) : Nat → Nat
  | 0 => 0
  | n + 1 => if seenAt (n + 1) then n + 1 else lastSeenLe seenAt n

/-- Request bytes of the extended diagnostic session query
(`EXT_DIAG_REQUEST = b'\x10\x03'`). -/
def EXT_DIAG_REQUEST : List Nat := [0x10, 0x03]

/-- Expected response bytes of the extended diagnostic session query
(`EXT_DIAG_RESPONSE = b'\x50\x03'`). -/
def EXT_DIAG_RESPONSE : List Nat := [0x50, 0x03]

/-- Expected response bytes of the communication control query
(`COM_CONT_RESPONSE = b''`). -/
def COM_CONT_RESPONSE : List Nat := []

/-- Default delay after the disable command (`DEFAULT_DISABLE_DELAY = 0.5`),
in seconds. -/
def DEFAULT_DISABLE_DELAY : ℚ := 1 / 2

/-- Outcome of one `IsoTpParallelQuery(...).get_data(...)` call: either it
returns a response map (a list of target/payload entries, possibly empty) or
it raises an exception. -/
inductive QueryOutcome where
  | resp (entries : List ((Nat × Option Nat) × List Nat))
  | exc
deriving DecidableEq

/-- Behaviour injected into one retry iteration of `disable_ecu` by its
collaborators: the handshake `get_data(timeout)` outcome, the communication
control `get_data(0)` outcome, the `_verify_ecu_silence` outcome (`none`
means the call raised, `some b` that it completed returning `b`) and whether
the `time.sleep` call completes without raising. -/
structure AttemptEnv where
  handshake : QueryOutcome
  commControl : QueryOutcome
  verifyResult : Option Bool
  sleepOk : Bool
deriving DecidableEq

/-- Observable action of one retry iteration: the two query submissions (with
their target list, request payloads, expected response payloads and query
timeout in seconds), a silence verification (with the monitored addresses and
its timeout in seconds), or a sleep of the given duration in seconds. -/
inductive Event where
  | handshakeSubmit (targets : List (Nat × Option Nat)) (reqs resps : List (List Nat)) (tmo : ℚ)
  | commControlSubmit (targets : List (Nat × Option Nat)) (reqs resps : List (List Nat)) (tmo : ℚ)
  | verifyInvoke (addrs : List Nat) (tmo : ℚ)
  | sleep (d : ℚ)
deriving DecidableEq

/-- Parameters of `disable_ecu`, with the source's default values.  The two
callbacks `can_recv`/`can_send` are abstracted into the per-attempt
environment.  Delays and timeouts are rationals in seconds; no arithmetic is
performed on them, they are only passed along. -/
structure DisableArgs where
  bus : Nat := 0
  addr : Nat := 0x7d0
  sub_addr : Option Nat := none
  com_cont_req : List Nat := [0x28, 0x83, 0x01]
  timeout : ℚ := 1 / 10
  retry : Nat := 10
  verify_silence_addrs : Option (List Nat) := none
  verify_silence_timeout : ℚ := 3 / 2
  post_disable_delay : Option ℚ := none
deriving DecidableEq

/-- The handshake submission event of an attempt:
`IsoTpParallelQuery(can_send, can_recv, bus, [(addr, sub_addr)],
[EXT_DIAG_REQUEST], [EXT_DIAG_RESPONSE])` followed by `get_data(timeout)`. -/
def hsEvent (args : DisableArgs) : Event :=
  Event.handshakeSubmit [(args.addr, args.sub_addr)] [EXT_DIAG_REQUEST] [EXT_DIAG_RESPONSE]
    args.timeout

/-- The communication control submission event of an attempt:
`IsoTpParallelQuery(can_send, can_recv, bus, [(addr, sub_addr)],
[com_cont_req], [COM_CONT_RESPONSE])` followed by `get_data(0)`. -/
def ccEvent (args : DisableArgs) : Event :=
  Event.commControlSubmit [(args.addr, args.sub_addr)] [args.com_cont_req] [COM_CONT_RESPONSE] 0

/-- One iteration of the `for i in range(retry)` loop of `disable_ecu`, inside
its `try`.  The handshake response map is iterated by
`for _, _ in query.get_data(timeout).items()`; its body submits the
communication control query, runs the verification or delay, and returns
true, so the body runs at most once and only when the map is non-empty.  Any
raising stage ends the attempt with `False` (the `except` catches it); the
events recorded are the submissions and waits performed up to that point.
`if verify_silence_addrs:` is Python truthiness: only a non-empty list takes
the verification branch. -/
def runAttempt (args : DisableArgs) (a : AttemptEnv) : Bool × List Event :=
  match a.handshake with
  | .exc => (false, [hsEvent args])
  | .resp [] => (false, [hsEvent args])
  | .resp (_ :: _) =>
    match a.commControl with
    | .exc => (false, [hsEvent args, ccEvent args])
    | .resp _ =>
      match args.verify_silence_addrs with
      | some (v :: vs) =>
        match a.verifyResult with
        | some _ =>
          (true, [hsEvent args, ccEvent args, .verifyInvoke (v :: vs) args.verify_silence_timeout])
        | none =>
          (false, [hsEvent args, ccEvent args, .verifyInvoke (v :: vs) args.verify_silence_timeout])
      | _ =>
        match args.post_disable_delay with
        | some d => (a.sleepOk, [hsEvent args, ccEvent args, .sleep d])
        | none => (a.sleepOk, [hsEvent args, ccEvent args, .sleep DEFAULT_DISABLE_DELAY])

/-- The retry loop of `disable_ecu`: `i` is the current attempt index and
`fuel` the number of attempts left.  A successful attempt returns
immediately; a failed one falls through to the next iteration.  After the
last iteration the function returns `False`.  The second component is the
concatenated event trace. -/
def disableLoop (args : DisableArgs) (env : Nat → AttemptEnv) : Nat → Nat → Bool × List Event
  | _, 0 => (false, [])
  | i, fuel + 1 =>
    let r := runAttempt args (env i)
    if r.1 then r
    else
      let rest := disableLoop args env (i + 1) fuel
      (rest.1, r.2 ++ rest.2)

/-- Embedding of `disable_ecu`: run up to `args.retry` attempts, the
behaviour of attempt `i`'s collaborators given by `env i`. -/
def disable_ecu (args : DisableArgs) (env : Nat → AttemptEnv) : Bool × List Event :=
  disableLoop args env 0 args.retry

/-- Number of events of a trace satisfying `p`. -/
def countEvents (p : Event → Bool) (tr : List Event) : Nat :=
  (tr.filter p).length

/-- Recogniser for handshake submission events. -/
def isHandshake : Event → Bool
  | .handshakeSubmit _ _ _ _ => true
  | _ => false

/-- Recogniser for communication control submission events. -/
def isCommControl : Event → Bool
  | .commControlSubmit _ _ _ _ => true
  | _ => false

/-- Recogniser for silence verification events. -/
def isVerifyInvoke : Event → Bool
  | .verifyInvoke _ _ => true
  | _ => false

/-- True when the attempt's handshake query returned a non-empty response
map, which is exactly the condition under which the `for ... .items()` body
runs. -/
def handshakeNonempty (a : AttemptEnv) : Bool :=
  match a.handshake with
  | .resp (_ :: _) => true
  | _ => false

/-- True when the attempt's handshake stage failed: the query either timed
out with an empty response map or raised. -/
def handshakeFailed (a : AttemptEnv) : Bool :=
  match a.handshake with
  | .resp [] => true
  | .exc => true
  | _ => false

/-- Python truthiness of the `verify_silence_addrs` argument: true only for a
present, non-empty list. -/
def truthy : Option (List Nat) → Bool
  | some (_ :: _) => true
  | _ => false

/-- True when the post-handshake stages of an attempt complete without
raising: the communication control query returns, and the verification
(respectively the sleep, depending on which branch `disable_ecu` takes)
completes. -/
def attemptCompletes (args : DisableArgs) (a : AttemptEnv) : Bool :=
  (match a.commControl with
    | .resp _ => true
    | .exc => false) &&
  (match args.verify_silence_addrs with
    | some (_ :: _) => a.verifyResult.isSome
    | _ => a.sleepOk)

/-- True when an exception is raised at some stage actually reached during
the attempt: in the handshake query, in the communication control query, in
the silence verification, or in the sleep. -/
def attemptRaises (args : DisableArgs) (a : AttemptEnv) : Bool :=
  match a.handshake with
  | .exc => true
  | .resp [] => false
  | .resp (_ :: _) =>
    match a.commControl with
    | .exc => true
    | .resp _ =>
      match args.verify_silence_addrs with
      | some (_ :: _) => a.verifyResult.isNone
      | _ => !a.sleepOk

/-- Step relation of a small checker for the per-attempt ordering of events:
state 0 is "attempt not started", state 1 "handshake submitted", state 2
"communication control submitted".  A handshake submission (re)starts an
attempt from any state; a communication control submission is only legal
directly after a handshake submission; a verification or sleep only after the
communication control submission. -/
def stepOrd : Nat → Event → Option Nat
  | _, .handshakeSubmit _ _ _ _ => some 1
  | 1, .commControlSubmit _ _ _ _ => some 2
  | 2, .commControlSubmit _ _ _ _ => none
  | _, .commControlSubmit _ _ _ _ => none
  | 2, .verifyInvoke _ _ => some 2
  | _, .verifyInvoke _ _ => none
  | 2, .sleep _ => some 2
  | _, .sleep _ => none

/-- Run of the ordering checker over a trace from a given state. -/
def traceOrderedAux : Nat → List Event → Bool
  | _, [] => true
  | s, e :: rest =>
    match stepOrd s e with
    | none => false
    | some t => traceOrderedAux t rest

/-- A trace is well ordered when the checker accepts it from the initial
state. -/
def traceOrdered (tr : List Event) : Bool :=
  traceOrderedAux 0 tr

/-- Disjunction of the attempt successes of the first `fuel` attempts from
index `i`. -/
def loopAny (args : DisableArgs) (env : Nat → AttemptEnv) : Nat → Nat → Bool
  | _, 0 => false
  | i, fuel + 1 => (runAttempt args (env i)).1 || loopAny args env (i + 1) fuel

/-- Checks the payload of a submission event against the source's byte
patterns: a handshake submission must carry `[EXT_DIAG_REQUEST]`,
`[EXT_DIAG_RESPONSE]` and the per-attempt `timeout`; a communication control
submission must carry `[com_cont_req]`, `[COM_CONT_RESPONSE]` and the zero
response timeout. -/
def eventWellFormed (args : DisableArgs) : Event → Bool
  | .handshakeSubmit _ reqs resps t =>
    decide (reqs = [EXT_DIAG_REQUEST]) && decide (resps = [EXT_DIAG_RESPONSE]) &&
      decide (t = args.timeout)
  | .commControlSubmit _ reqs resps t =>
    decide (reqs = [args.com_cont_req]) && decide (resps = [COM_CONT_RESPONSE]) && decide (t = 0)
  | _ => true

/-- Checks that an event is not a silence verification, and that a sleep
event waits `post_disable_delay` when that argument is given and
`DEFAULT_DISABLE_DELAY` otherwise. -/
def noVerifySleepDefault (args : DisableArgs) : Event → Bool
  | .verifyInvoke _ _ => false
  | .sleep d =>
    decide (d = match args.post_disable_delay with
      | some x => x
      | none => DEFAULT_DISABLE_DELAY)
  | _ => true

theorem runAttempt_of_handshakeFailed (args : DisableArgs) (a : AttemptEnv)
    (h : handshakeFailed a = true) : runAttempt args a = (false, [hsEvent args]) := by
  rcases a with ⟨hs, cc, vr, so⟩
  rcases hs with entries | _
  · rcases entries with _ | ⟨e, es⟩
    · rfl
    · simp [handshakeFailed] at h
  · rfl

theorem runAttempt_success_shape (args : DisableArgs) (a : AttemptEnv)
    (h1 : handshakeNonempty a = true) (h2 : attemptCompletes args a = true) :
    ∃ p, runAttempt args a = (true, [hsEvent args, ccEvent args, p]) ∧
      isHandshake p = false ∧ isCommControl p = false ∧ stepOrd 2 p = some 2 := by
  rcases a with ⟨hs, cc, vr, so⟩
  rcases hs with entries | _
  · rcases entries with _ | ⟨e, es⟩
    · simp [handshakeNonempty] at h1
    · rcases cc with r | _
      · simp only [attemptCompletes] at h2
        rcases hv : args.verify_silence_addrs with _ | l
        · rw [hv] at h2
          simp only [Bool.true_and] at h2
          rcases hd : args.post_disable_delay with _ | d
          · refine ⟨Event.sleep DEFAULT_DISABLE_DELAY, ?_, rfl, rfl, rfl⟩
            simp [runAttempt, hv, hd, h2]
          · refine ⟨Event.sleep d, ?_, rfl, rfl, rfl⟩
            simp [runAttempt, hv, hd, h2]
        · rcases l with _ | ⟨v, vs⟩
          · rw [hv] at h2
            simp only [Bool.true_and] at h2
            rcases hd : args.post_disable_delay with _ | d
            · refine ⟨Event.sleep DEFAULT_DISABLE_DELAY, ?_, rfl, rfl, rfl⟩
              simp [runAttempt, hv, hd, h2]
            · refine ⟨Event.sleep d, ?_, rfl, rfl, rfl⟩
              simp [runAttempt, hv, hd, h2]
          · rw [hv] at h2
            simp only [Bool.true_and, Option.isSome_iff_exists] at h2
            rcases h2 with ⟨b, hb⟩
            refine ⟨Event.verifyInvoke (v :: vs) args.verify_silence_timeout, ?_, rfl, rfl, rfl⟩
            simp [runAttempt, hv, hb]
      · simp [attemptCompletes] at h2
  · simp [handshakeNonempty] at h1

theorem runAttempt_trace_shape (args : DisableArgs) (a : AttemptEnv) :
    (runAttempt args a).2 = [hsEvent args] ∨
    (runAttempt args a).2 = [hsEvent args, ccEvent args] ∨
    ∃ p, (runAttempt args a).2 = [hsEvent args, ccEvent args, p] ∧ stepOrd 2 p = some 2 := by
  rcases a with ⟨hs, cc, vr, so⟩
  rcases hs with entries | _
  · rcases entries with _ | ⟨e, es⟩
    · exact Or.inl rfl
    · rcases cc with r | _
      · refine Or.inr (Or.inr ?_)
        rcases hv : args.verify_silence_addrs with _ | l
        · rcases hd : args.post_disable_delay with _ | d
          · exact ⟨Event.sleep DEFAULT_DISABLE_DELAY, by simp [runAttempt, hv, hd], rfl⟩
          · exact ⟨Event.sleep d, by simp [runAttempt, hv, hd], rfl⟩
        · rcases l with _ | ⟨v, vs⟩
          · rcases hd : args.post_disable_delay with _ | d
            · exact ⟨Event.sleep DEFAULT_DISABLE_DELAY, by simp [runAttempt, hv, hd], rfl⟩
            · exact ⟨Event.sleep d, by simp [runAttempt, hv, hd], rfl⟩
          · rcases vr with _ | b
            · exact ⟨Event.verifyInvoke (v :: vs) args.verify_silence_timeout,
                by simp [runAttempt, hv], rfl⟩
            · exact ⟨Event.verifyInvoke (v :: vs) args.verify_silence_timeout,
                by simp [runAttempt, hv], rfl⟩
      · exact Or.inr (Or.inl rfl)
  · exact Or.inl rfl

theorem disableLoop_succ (args : DisableArgs) (env : Nat → AttemptEnv) (i fuel : Nat) :
    disableLoop args env i (fuel + 1) =
      if (runAttempt args (env i)).1 then runAttempt args (env i)
      else ((disableLoop args env (i + 1) fuel).1,
        (runAttempt args (env i)).2 ++ (disableLoop args env (i + 1) fuel).2) := rfl

theorem stepOrd_handshake (s : Nat) (t : List (Nat × Option Nat)) (r ps : List (List Nat))
    (q : ℚ) : stepOrd s (Event.handshakeSubmit t r ps q) = some 1 := by
  rcases s with _ | _ | _ | s <;> rfl

theorem stepOrd_hsEvent (s : Nat) (args : DisableArgs) : stepOrd s (hsEvent args) = some 1 :=
  stepOrd_handshake s _ _ _ _

theorem stepOrd_ccEvent (args : DisableArgs) : stepOrd 1 (ccEvent args) = some 2 := rfl

theorem traceOrderedAux_cons_some (s : Nat) (e : Event) (t : Nat) (rest : List Event)
    (h : stepOrd s e = some t) : traceOrderedAux s (e :: rest) = traceOrderedAux t rest := by
  simp only [traceOrderedAux]
  rw [h]

theorem countEvents_append (p : Event → Bool) (l1 l2 : List Event) :
    countEvents p (l1 ++ l2) = countEvents p l1 + countEvents p l2 := by
  simp [countEvents, List.filter_append]

theorem countEvents_replicate (p : Event → Bool) (n : Nat) (e : Event) :
    countEvents p (List.replicate n e) = if p e then n else 0 := by
  induction n with
  | zero => simp [countEvents]
  | succ n ih =>
    simp only [List.replicate_succ, countEvents, List.filter_cons] at *
    cases hp : p e <;> simp_all

theorem disableLoop_fst_eq_loopAny (args : DisableArgs) (env : Nat → AttemptEnv) :
    ∀ fuel i, (disableLoop args env i fuel).1 = loopAny args env i fuel := by
  intro fuel
  induction fuel with
  | zero => intro i; rfl
  | succ fuel ih =>
    intro i
    rw [disableLoop_succ]
    cases hr : (runAttempt args (env i)).1 <;> simp [loopAny, hr, ih]

theorem disableLoop_skip_failed (args : DisableArgs) (env : Nat → AttemptEnv) :
    ∀ m i fuel, (∀ j, i ≤ j → j < i + m → handshakeFailed (env j) = true) →
    disableLoop args env i (m + fuel) =
      ((disableLoop args env (i + m) fuel).1,
        List.replicate m (hsEvent args) ++ (disableLoop args env (i + m) fuel).2) := by
  intro m
  induction m with
  | zero => intro i fuel _; simp
  | succ m ih =>
    intro i fuel h
    have hfail : runAttempt args (env i) = (false, [hsEvent args]) :=
      runAttempt_of_handshakeFailed _ _ (h i le_rfl (by omega))
    have hstep : m + 1 + fuel = (m + fuel) + 1 := by omega
    rw [hstep, disableLoop_succ, hfail]
    have ih' := ih (i + 1) fuel (fun j hj1 hj2 => h j (by omega) (by omega))
    have hidx : i + 1 + m = i + (m + 1) := by omega
    rw [hidx] at ih'
    rw [ih']
    simp [List.replicate_succ]

theorem disableLoop_fst_skip (args : DisableArgs) (env : Nat → AttemptEnv) :
    ∀ m i fuel, (∀ j, i ≤ j → j < i + m → (runAttempt args (env j)).1 = false) →
    (disableLoop args env i (m + fuel)).1 = (disableLoop args env (i + m) fuel).1 := by
  intro m
  induction m with
  | zero => intro i fuel _; simp
  | succ m ih =>
    intro i fuel h
    have hstep : m + 1 + fuel = (m + fuel) + 1 := by omega
    rw [hstep, disableLoop_succ]
    have hfail := h i le_rfl (by omega)
    rw [hfail]
    have ih' := ih (i + 1) fuel (fun j hj1 hj2 => h j (by omega) (by omega))
    have hidx : i + 1 + m = i + (m + 1) := by omega
    rw [hidx] at ih'
    simpa using ih'

theorem disableLoop_all_events (args : DisableArgs) (env : Nat → AttemptEnv) (p : Event → Bool)
    (h : ∀ a, (runAttempt args a).2.all p = true) :
    ∀ fuel i, (disableLoop args env i fuel).2.all p = true := by
  intro fuel
  induction fuel with
  | zero => intro i; rfl
  | succ fuel ih =>
    intro i
    rw [disableLoop_succ]
    cases hr : (runAttempt args (env i)).1 <;>
      simp [hr, List.all_append, h (env i), ih (i + 1)]

theorem disableLoop_congr (args1 args2 : DisableArgs) (env : Nat → AttemptEnv)
    (h : ∀ a, runAttempt args1 a = runAttempt args2 a) :
    ∀ fuel i, disableLoop args1 env i fuel = disableLoop args2 env i fuel := by
  intro fuel
  induction fuel with
  | zero => intro i; rfl
  | succ fuel ih =>
    intro i
    rw [disableLoop_succ, disableLoop_succ, h (env i), ih (i + 1)]

theorem disableLoop_ordered (args : DisableArgs) (env : Nat → AttemptEnv) :
    ∀ fuel i s, traceOrderedAux s (disableLoop args env i fuel).2 = true := by
  intro fuel
  induction fuel with
  | zero => intro i s; rfl
  | succ fuel ih =>
    intro i s
    rw [disableLoop_succ]
    rcases runAttempt_trace_shape args (env i) with hsh | hsh | ⟨p, hsh, hp⟩ <;>
      cases hr : (runAttempt args (env i)).1
    · simp only [hr, Bool.false_eq_true, if_false, hsh, List.cons_append, List.nil_append]
      rw [traceOrderedAux_cons_some s _ 1 _ (stepOrd_hsEvent s args)]
      exact ih (i + 1) 1
    · simp only [hr, if_true, hsh]
      rw [traceOrderedAux_cons_some s _ 1 _ (stepOrd_hsEvent s args)]
      rfl
    · simp only [hr, Bool.false_eq_true, if_false, hsh, List.cons_append, List.nil_append]
      rw [traceOrderedAux_cons_some s _ 1 _ (stepOrd_hsEvent s args),
        traceOrderedAux_cons_some 1 _ 2 _ (stepOrd_ccEvent args)]
      exact ih (i + 1) 2
    · simp only [hr, if_true, hsh]
      rw [traceOrderedAux_cons_some s _ 1 _ (stepOrd_hsEvent s args),
        traceOrderedAux_cons_some 1 _ 2 _ (stepOrd_ccEvent args)]
      rfl
    · simp only [hr, Bool.false_eq_true, if_false, hsh, List.cons_append, List.nil_append]
      rw [traceOrderedAux_cons_some s _ 1 _ (stepOrd_hsEvent s args),
        traceOrderedAux_cons_some 1 _ 2 _ (stepOrd_ccEvent args),
        traceOrderedAux_cons_some 2 _ 2 _ hp]
      exact ih (i + 1) 2
    · simp only [hr, if_true, hsh]
      rw [traceOrderedAux_cons_some s _ 1 _ (stepOrd_hsEvent s args),
        traceOrderedAux_cons_some 1 _ 2 _ (stepOrd_ccEvent args),
        traceOrderedAux_cons_some 2 _ 2 _ hp]
      rfl

theorem verifySilenceAux_succ (recv : Nat → List (List CanMsg)) (bus : Nat) (addrs : List Nat)
    (fuel n last : Nat) :
    verifySilenceAux recv bus addrs (fuel + 1) n last =
      if silence_duration_ticks ≤ n - (if messageSeen bus addrs (recv n) then n else last)
      then true
      else verifySilenceAux recv bus addrs fuel (n + 1)
        (if messageSeen bus addrs (recv n) then n else last) := rfl

theorem verifySilenceAux_quiet_true (recv : Nat → List (List CanMsg)) (bus : Nat)
    (addrs : List Nat) :
    ∀ fuel j, j ≤ silence_duration_ticks →
    (∀ n, n ≤ silence_duration_ticks → messageSeen bus addrs (recv n) = false) →
    silence_duration_ticks + 1 ≤ j + fuel →
    verifySilenceAux recv bus addrs fuel j 0 = true := by
  intro fuel
  induction fuel with
  | zero =>
    intro j hj _ hfuel
    have h15 : silence_duration_ticks = 15 := rfl
    rw [h15] at hj hfuel
    omega
  | succ fuel ih =>
    intro j hj hquiet hfuel
    rw [verifySilenceAux_succ, hquiet j hj]
    simp only [Bool.false_eq_true, if_false]
    by_cases hstop : silence_duration_ticks ≤ j - 0
    · rw [if_pos hstop]
    · rw [if_neg hstop]
      exact ih (j + 1) (by omega) hquiet (by omega)

theorem lastSeenLe_ge (f : Nat → Bool) :
    ∀ m j, f j = true → j ≤ m → j ≤ lastSeenLe f m := by
  intro m
  induction m with
  | zero =>
    intro j _ hj
    omega
  | succ m ih =>
    intro j hf hj
    rcases Nat.lt_or_ge j (m + 1) with hlt | hge
    · simp only [lastSeenLe]
      split
      · omega
      · exact ih j hf (by omega)
    · have : j = m + 1 := by omega
      subst this
      simp [lastSeenLe, hf]

theorem verifySilenceAux_traffic_false (recv : Nat → List (List CanMsg)) (bus : Nat)
    (addrs : List Nat) :
    ∀ fuel n last,
    (if messageSeen bus addrs (recv n) then n else last) =
      lastSeenLe (fun j => messageSeen bus addrs (recv j)) n →
    (∀ m, n ≤ m → m < n + fuel →
      m - lastSeenLe (fun j => messageSeen bus addrs (recv j)) m < silence_duration_ticks) →
    verifySilenceAux recv bus addrs fuel n last = false := by
  intro fuel
  induction fuel with
  | zero => intro n last _ _; rfl
  | succ fuel ih =>
    intro n last h1 h2
    rw [verifySilenceAux_succ, h1]
    have hlt := h2 n le_rfl (by omega)
    rw [if_neg (by omega)]
    apply ih (n + 1) (lastSeenLe (fun j => messageSeen bus addrs (recv j)) n)
    · simp [lastSeenLe]
    · intro m hm1 hm2
      exact h2 m (by omega) (by omega)

theorem verifySilenceAux_small_timeout (recv : Nat → List (List CanMsg)) (bus : Nat)
    (addrs : List Nat) :
    ∀ fuel n last, n + fuel ≤ silence_duration_ticks →
    verifySilenceAux recv bus addrs fuel n last = false := by
  intro fuel
  induction fuel with
  | zero => intro n last _; rfl
  | succ fuel ih =>
    intro n last h
    rw [verifySilenceAux_succ]
    have hsub : n - (if messageSeen bus addrs (recv n) then n else last) ≤ n := Nat.sub_le _ _
    rw [if_neg (by omega)]
    exact ih (n + 1) _ (by omega)

theorem runAttempt_events_wellFormed (args : DisableArgs) (a : AttemptEnv) :
    (runAttempt args a).2.all (eventWellFormed args) = true := by
  have hhs : eventWellFormed args (hsEvent args) = true := by
    simp [eventWellFormed, hsEvent]
  have hcc : eventWellFormed args (ccEvent args) = true := by
    simp [eventWellFormed, ccEvent]
  rcases runAttempt_trace_shape args a with h | h | ⟨p, h, hp⟩ <;> rw [h]
  · simp [hhs]
  · simp [hhs, hcc]
  · have hpw : eventWellFormed args p = true := by
      rcases p with ⟨t, r, ps, q⟩ | ⟨t, r, ps, q⟩ | ⟨ad, tm⟩ | ⟨d⟩
      · rw [stepOrd_handshake] at hp
        exact absurd hp (by simp)
      · simp [stepOrd] at hp
      · rfl
      · rfl
    simp [hhs, hcc, hpw]

theorem runAttempt_vsa_empty (args : DisableArgs) (a : AttemptEnv) :
    runAttempt { args with verify_silence_addrs := some [] } a =
      runAttempt { args with verify_silence_addrs := none } a := by
  rcases a with ⟨hs, cc, vr, so⟩
  rcases hs with entries | _
  · rcases entries with _ | ⟨e, es⟩
    · rfl
    · rcases cc with r | _ <;> rfl
  · rfl

theorem runAttempt_vsa_empty_events (args : DisableArgs) (a : AttemptEnv) :
    (runAttempt { args with verify_silence_addrs := some [] } a).2.all
      (noVerifySleepDefault args) = true := by
  rcases a with ⟨hs, cc, vr, so⟩
  rcases hs with entries | _
  · rcases entries with _ | ⟨e, es⟩
    · rfl
    · rcases cc with r | _
      · rcases hd : args.post_disable_delay with _ | d <;>
          simp [runAttempt, hd, noVerifySleepDefault, hsEvent, ccEvent]
      · rfl
  · rfl

/-- C3 counterexample: with `timeout` equal to the quiet duration (0.3 s = 15
ticks) and no matching frame ever received, `_verify_ecu_silence` returns
false, because the loop guard `now - start_time < timeout` stops the loop at
exactly the tick at which `now - last_message_time >= silence_duration`
would first hold.  The claim asserts a true result for every
`timeout >= 0.3 s`. -/
theorem verify_silence_timeout_eq_quiet_cex :
    verify_ecu_silence (fun _ => []) 0 [0x7d0] 15 = false := by decide

/-- C3 (amended): for every call of `_verify_ecu_silence` whose `timeout` is
strictly greater than the quiet duration (0.3 s = 15 ticks), if no received
frame matches `(bus, addrs)` during the first 0.3 s of the call (polls at
ticks 0..15), the function returns true once 0.3 s has elapsed, regardless
of the value of `timeout`. -/
theorem verify_silence_quiet_start_true (recv : Nat → List (List CanMsg)) (bus : Nat)
    (addrs : List Nat) (timeout : Nat)
    (htmo : silence_duration_ticks < timeout)
    (hquiet : ∀ n, n ≤ silence_duration_ticks → messageSeen bus addrs (recv n) = false) :
    verify_ecu_silence recv bus addrs timeout = true :=
  verifySilenceAux_quiet_true recv bus addrs timeout 0 (Nat.zero_le _) hquiet (by omega)

/-- Witness for C3 (amended) at a concrete input: 16 ticks of timeout, no
traffic at all. -/
theorem verify_silence_quiet_start_true_witness :
    verify_ecu_silence (fun _ => []) 0 [0x7d0] 16 = true :=
  verify_silence_quiet_start_true (fun _ => []) 0 [0x7d0] 16 (by decide) (fun n _ => rfl)

/-- C4: if every 0.3 s sub-interval of the timeout window contains a poll at
which a matching frame was received — that is, for every poll `m` within the
timeout that has a full quiet-duration lookback window (`m ≥ 15` ticks),
some poll in the 15 ticks up to and including `m` saw a matching frame —
then `_verify_ecu_silence` never observes 0.3 s of quiet and returns false
once the timeout elapses.  Polls within the first 0.3 s need no frame: there
`last_message_time` still trails the call start by less than the quiet
duration. -/
theorem verify_silence_persistent_traffic_false (recv : Nat → List (List CanMsg)) (bus : Nat)
    (addrs : List Nat) (timeout : Nat)
    (htraffic : ∀ m, m < timeout → silence_duration_ticks ≤ m →
      ∃ j, j ≤ m ∧ m - j < silence_duration_ticks ∧
        messageSeen bus addrs (recv j) = true) :
    verify_ecu_silence recv bus addrs timeout = false := by
  apply verifySilenceAux_traffic_false
  · cases hs : messageSeen bus addrs (recv 0) <;> simp [lastSeenLe, hs]
  · intro m hm1 hm2
    by_cases hm : silence_duration_ticks ≤ m
    · obtain ⟨j, hj1, hj2, hj3⟩ := htraffic m (by omega) hm
      have hge := lastSeenLe_ge (fun j => messageSeen bus addrs (recv j)) m j hj3 hj1
      omega
    · have hsub := Nat.sub_le m (lastSeenLe (fun j => messageSeen bus addrs (recv j)) m)
      omega

/-- Witness for C4 at a concrete input: the first matching frame arrives one
tick after the call starts and a frame arrives at every poll from then on,
so every full 0.3 s sub-interval contains one; the verifier times out after
20 ticks. -/
theorem verify_silence_persistent_traffic_false_witness :
    verify_ecu_silence (fun n => if n = 0 then [] else [[⟨0, 0x7d0⟩]]) 0 [0x7d0] 20 = false :=
  verify_silence_persistent_traffic_false (fun n => if n = 0 then [] else [[⟨0, 0x7d0⟩]])
    0 [0x7d0] 20
    (fun m _ hm2 => ⟨m, le_rfl,
      by
        have h15 : silence_duration_ticks = 15 := rfl
        omega,
      by
        have h15 : silence_duration_ticks = 15 := rfl
        rw [h15] at hm2
        show messageSeen 0 [0x7d0] (if m = 0 then [] else [[⟨0, 0x7d0⟩]]) = true
        rw [if_neg (by omega : ¬ m = 0)]
        rfl⟩)

/-- C8 counterexample: `_verify_ecu_silence` contains no assertion; a call
with `timeout` at most the quiet duration (here 10 ticks = 0.2 s ≤ 0.3 s) is
not rejected — it runs the polling loop to completion and returns false. -/
theorem verify_silence_no_assert_cex :
    verify_ecu_silence (fun _ => []) 0 [0x7d0] 10 = false := by decide

/-- C8 (amended): the implementation does not assert that the quiet duration
is smaller than the timeout; a call of the silence verifier with
`timeout ≤ 0.3 s` (15 ticks) silently runs a verification that can never
succeed and always returns false. -/
theorem verify_silence_small_timeout_always_false (recv : Nat → List (List CanMsg)) (bus : Nat)
    (addrs : List Nat) (timeout : Nat) (h : timeout ≤ silence_duration_ticks) :
    verify_ecu_silence recv bus addrs timeout = false :=
  verifySilenceAux_small_timeout recv bus addrs timeout 0 0 (by omega)

/-- Witness for C8 (amended) at a concrete input. -/
theorem verify_silence_small_timeout_always_false_witness :
    verify_ecu_silence (fun _ => []) 1 [0x2fa] 7 = false :=
  verify_silence_small_timeout_always_false (fun _ => []) 1 [0x2fa] 7 (by decide)

/-- C1: for every retry count of at least 1, if every handshake attempt
times out (the extended diagnostic session query returns an empty response
map on every attempt), `disable_ecu` returns false, performs exactly `retry`
handshake submissions and never submits a communication control request. -/
theorem disable_ecu_all_timeouts_fails (args : DisableArgs) (env : Nat → AttemptEnv)
    (hretry : 1 ≤ args.retry)
    (htimeout : ∀ i, i < args.retry → (env i).handshake = QueryOutcome.resp []) :
    (disable_ecu args env).1 = false ∧
    countEvents isHandshake (disable_ecu args env).2 = args.retry ∧
    countEvents isCommControl (disable_ecu args env).2 = 0 := by
  have key : disable_ecu args env = (false, List.replicate args.retry (hsEvent args)) := by
    unfold disable_ecu
    have hskip := disableLoop_skip_failed args env args.retry 0 0
      (fun j hj1 hj2 => by simp [handshakeFailed, htimeout j (by omega)])
    rw [Nat.add_zero] at hskip
    rw [hskip]
    simp [disableLoop]
  rw [key]
  refine ⟨rfl, ?_, ?_⟩
  · rw [countEvents_replicate]
    simp [isHandshake, hsEvent]
  · rw [countEvents_replicate]
    simp [isCommControl, hsEvent]

/-- Witness for C1 at a concrete input: three attempts, all returning an
empty response map. -/
theorem disable_ecu_all_timeouts_fails_witness :
    (disable_ecu { retry := 3 }
      (fun _ => ⟨QueryOutcome.resp [], QueryOutcome.resp [], some true, true⟩)).1 = false ∧
    countEvents isHandshake (disable_ecu { retry := 3 }
      (fun _ => ⟨QueryOutcome.resp [], QueryOutcome.resp [], some true, true⟩)).2 = 3 ∧
    countEvents isCommControl (disable_ecu { retry := 3 }
      (fun _ => ⟨QueryOutcome.resp [], QueryOutcome.resp [], some true, true⟩)).2 = 0 :=
  disable_ecu_all_timeouts_fails _ _ (by decide) (fun i _ => rfl)

/-- C2 is false as stated: an attempt whose handshake succeeds can still fail
as a whole when a later stage of the same attempt raises.  Concretely, with
`retry = 1` and `k = 1`, the handshake of attempt 1 returns a non-empty
response map (so the claim's hypotheses hold) but the communication control
submission raises, and `disable_ecu` returns false instead of the claimed
true. -/
theorem disable_ecu_handshake_success_not_sufficient_cex :
    handshakeNonempty ⟨QueryOutcome.resp [((0x7d0, none), [0x50, 0x03])],
      QueryOutcome.exc, some true, true⟩ = true ∧
    (disable_ecu { retry := 1 }
      (fun _ => ⟨QueryOutcome.resp [((0x7d0, none), [0x50, 0x03])],
        QueryOutcome.exc, some true, true⟩)).1 = false := by
  exact ⟨rfl, rfl⟩

/-- C2 (amended): for every attempt index `k` with `1 ≤ k ≤ retry`, if the
handshake fails (times out or raises) on attempts `1..k-1`, the handshake of
attempt `k` returns a non-empty response map, and the remaining stages of
attempt `k` (communication control submission and verification or delay)
complete without raising, then `disable_ecu` returns true, performs exactly
`k` handshake submissions and submits exactly one communication control
request. -/
theorem disable_ecu_first_success_attempt (args : DisableArgs) (env : Nat → AttemptEnv)
    (k : Nat) (hk1 : 1 ≤ k) (hk2 : k ≤ args.retry)
    (hfail : ∀ i, i < k - 1 → handshakeFailed (env i) = true)
    (hsucc : handshakeNonempty (env (k - 1)) = true)
    (hcomp : attemptCompletes args (env (k - 1)) = true) :
    (disable_ecu args env).1 = true ∧
    countEvents isHandshake (disable_ecu args env).2 = k ∧
    countEvents isCommControl (disable_ecu args env).2 = 1 := by
  obtain ⟨p, hp, hph, hpc, _⟩ := runAttempt_success_shape args (env (k - 1)) hsucc hcomp
  have hinner : disableLoop args env (k - 1) ((args.retry - k) + 1) =
      (true, [hsEvent args, ccEvent args, p]) := by
    rw [disableLoop_succ, hp]
    simp
  have hmain : disable_ecu args env =
      (true, List.replicate (k - 1) (hsEvent args) ++ [hsEvent args, ccEvent args, p]) := by
    unfold disable_ecu
    have hsplit : args.retry = (k - 1) + ((args.retry - k) + 1) := by omega
    rw [hsplit, disableLoop_skip_failed args env (k - 1) 0 ((args.retry - k) + 1)
      (fun j hj1 hj2 => hfail j (by omega)), Nat.zero_add, hinner]
  rw [hmain]
  refine ⟨rfl, ?_, ?_⟩
  · rw [countEvents_append, countEvents_replicate]
    have e1 : isHandshake (hsEvent args) = true := rfl
    have e2 : isHandshake (ccEvent args) = false := rfl
    have hone : countEvents isHandshake [hsEvent args, ccEvent args, p] = 1 := by
      simp [countEvents, List.filter_cons, e1, e2, hph]
    rw [hone, e1]
    simp only [if_pos]
    omega
  · rw [countEvents_append, countEvents_replicate]
    have e1 : isCommControl (hsEvent args) = false := rfl
    have e2 : isCommControl (ccEvent args) = true := rfl
    have hone : countEvents isCommControl [hsEvent args, ccEvent args, p] = 1 := by
      simp [countEvents, List.filter_cons, e1, e2, hpc]
    rw [hone, e1]
    simp

/-- Witness for C2 (amended) at a concrete input: attempt 1 raises in the
handshake, attempt 2 completes; `retry = 3`, `k = 2`. -/
theorem disable_ecu_first_success_attempt_witness :
    (disable_ecu { retry := 3 }
      (fun i => if i = 0 then ⟨QueryOutcome.exc, QueryOutcome.resp [], none, true⟩
        else ⟨QueryOutcome.resp [((0x7d0, none), [0x50, 0x03])],
          QueryOutcome.resp [], some true, true⟩)).1 = true ∧
    countEvents isHandshake (disable_ecu { retry := 3 }
      (fun i => if i = 0 then ⟨QueryOutcome.exc, QueryOutcome.resp [], none, true⟩
        else ⟨QueryOutcome.resp [((0x7d0, none), [0x50, 0x03])],
          QueryOutcome.resp [], some true, true⟩)).2 = 2 ∧
    countEvents isCommControl (disable_ecu { retry := 3 }
      (fun i => if i = 0 then ⟨QueryOutcome.exc, QueryOutcome.resp [], none, true⟩
        else ⟨QueryOutcome.resp [((0x7d0, none), [0x50, 0x03])],
          QueryOutcome.resp [], some true, true⟩)).2 = 1 :=
  disable_ecu_first_success_attempt _ _ 2 (by decide) (by decide)
    (fun i hi => by
      have : i = 0 := by omega
      subst this
      rfl)
    (by decide) (by decide)

/-- C5: with a non-empty `verify_silence_addrs`, once some attempt `k` is
reached (all earlier attempts failed), its handshake returns a non-empty
response map, the communication control request is submitted without
raising and the silence verification completes without raising, then
`disable_ecu` returns true on that attempt whether the verification
confirmed silence (`b = true`) or timed out (`b = false`): a verification
timeout never causes the disable operation to report failure. -/
theorem disable_ecu_verify_timeout_not_fatal (args : DisableArgs) (env : Nat → AttemptEnv)
    (k : Nat) (b : Bool)
    (hvsa : truthy args.verify_silence_addrs = true)
    (hk : k < args.retry)
    (hprev : ∀ j, j < k → (runAttempt args (env j)).1 = false)
    (hhs : handshakeNonempty (env k) = true)
    (hcc : (env k).commControl ≠ QueryOutcome.exc)
    (hver : (env k).verifyResult = some b) :
    (disable_ecu args env).1 = true := by
  have hcomp : attemptCompletes args (env k) = true := by
    unfold attemptCompletes
    rcases hcc2 : (env k).commControl with r | _
    · rcases hv : args.verify_silence_addrs with _ | l
      · rw [hv] at hvsa
        simp [truthy] at hvsa
      · rcases l with _ | ⟨v, vs⟩
        · rw [hv] at hvsa
          simp [truthy] at hvsa
        · simp [hv, hver]
    · exact absurd hcc2 hcc
  obtain ⟨p, hp, _, _, _⟩ := runAttempt_success_shape args (env k) hhs hcomp
  unfold disable_ecu
  have hsplit : args.retry = k + ((args.retry - k - 1) + 1) := by omega
  rw [hsplit, disableLoop_fst_skip args env k 0 ((args.retry - k - 1) + 1)
    (fun j hj1 hj2 => hprev j (by omega)), Nat.zero_add, disableLoop_succ, hp]
  rfl

/-- Witness for C5 at a concrete input: the verification times out
(`verifyResult = some false`) on attempt 2 after attempt 1 failed, and the
disable still reports success. -/
theorem disable_ecu_verify_timeout_not_fatal_witness :
    (disable_ecu { retry := 2, verify_silence_addrs := some [0x420] }
      (fun i => if i = 0 then ⟨QueryOutcome.resp [], QueryOutcome.resp [], some true, true⟩
        else ⟨QueryOutcome.resp [((0x7d0, none), [0x50, 0x03])],
          QueryOutcome.resp [], some false, true⟩)).1 = true :=
  disable_ecu_verify_timeout_not_fatal _ _ 1 false (by decide) (by decide)
    (fun j hj => by
      have : j = 0 := by omega
      subst this
      rfl)
    (by decide) (by decide) (by decide)

/-- C6: an exception raised at any stage reached during an attempt (handshake
query, communication control submission, verification or delay) makes that
attempt fail (first conjunct, as a boolean implication), and the result of
`disable_ecu` is the disjunction of the attempt successes over the retry
loop: failed attempts, including raising ones, fall through to the next
iteration and the function always returns a boolean instead of propagating
the exception. -/
theorem disable_ecu_exceptions_contained (args : DisableArgs) (env : Nat → AttemptEnv)
    (a : AttemptEnv) :
    (!attemptRaises args a || !(runAttempt args a).1) = true ∧
    (disable_ecu args env).1 = loopAny args env 0 args.retry := by
  constructor
  · rcases a with ⟨hs, cc, vr, so⟩
    rcases hs with entries | _
    · rcases entries with _ | ⟨e, es⟩
      · rfl
      · rcases cc with r | _
        · rcases hv : args.verify_silence_addrs with _ | l
          · rcases so <;> rcases hd : args.post_disable_delay with _ | d <;>
              simp [attemptRaises, runAttempt, hv, hd]
          · rcases l with _ | ⟨v, vs⟩
            · rcases so <;> rcases hd : args.post_disable_delay with _ | d <;>
                simp [attemptRaises, runAttempt, hv, hd]
            · rcases vr with _ | b <;> simp [attemptRaises, runAttempt, hv]
        · rfl
    · rfl
  · exact disableLoop_fst_eq_loopAny args env args.retry 0

/-- C7: in every execution of `disable_ecu` the event trace is accepted by
the ordering checker — within each attempt the communication control
submission comes directly after the handshake submission and the
verification or delay only after the communication control submission — and
an attempt's trace contains a communication control submission only when
that attempt's handshake returned a non-empty response map. -/
theorem disable_ecu_ordering (args : DisableArgs) (env : Nat → AttemptEnv) :
    traceOrdered (disable_ecu args env).2 = true ∧
    ∀ a : AttemptEnv, (!(runAttempt args a).2.any isCommControl || handshakeNonempty a) = true := by
  constructor
  · exact disableLoop_ordered args env args.retry 0 0
  · intro a
    rcases a with ⟨hs, cc, vr, so⟩
    rcases hs with entries | _
    · rcases entries with _ | ⟨e, es⟩
      · simp [runAttempt, hsEvent, isCommControl]
      · simp [handshakeNonempty]
    · simp [runAttempt, hsEvent, isCommControl]

/-- C9: the UDS byte patterns are bit-exact — the extended diagnostic
session request is `10 03` with expected response `50 03`, the default
communication control request is `28 83 01` with the empty expected
response; every handshake submission in every trace carries exactly those
payloads with the per-attempt timeout, every communication control
submission carries `com_cont_req` with a zero response timeout; and the
communication control submission is fire-and-forget — its response payload
never affects the attempt's result or trace. -/
theorem uds_byte_patterns :
    EXT_DIAG_REQUEST = [0x10, 0x03] ∧
    EXT_DIAG_RESPONSE = [0x50, 0x03] ∧
    COM_CONT_RESPONSE = [] ∧
    ({} : DisableArgs).com_cont_req = [0x28, 0x83, 0x01] ∧
    (∀ (args : DisableArgs) (env : Nat → AttemptEnv),
      (disable_ecu args env).2.all (eventWellFormed args) = true) ∧
    (∀ (args : DisableArgs) (hs : QueryOutcome) (vr : Option Bool) (so : Bool)
      (r r' : List ((Nat × Option Nat) × List Nat)),
      runAttempt args ⟨hs, QueryOutcome.resp r, vr, so⟩ =
        runAttempt args ⟨hs, QueryOutcome.resp r', vr, so⟩) := by
  refine ⟨rfl, rfl, rfl, rfl, ?_, ?_⟩
  · intro args env
    exact disableLoop_all_events args env _ (runAttempt_events_wellFormed args) args.retry 0
  · intro args hs vr so r r'
    rcases hs with entries | _
    · rcases entries with _ | ⟨e, es⟩ <;> rfl
    · rfl

/-- C10: passing an empty list as `verify_silence_addrs` behaves exactly as
passing `None`, because the code tests the argument's truthiness: the
results and traces coincide, the silence verifier is never invoked, and
after a successful attempt the sleep waits `post_disable_delay` when given
and the default 0.5 s otherwise. -/
theorem disable_ecu_empty_verify_addrs (args : DisableArgs) (env : Nat → AttemptEnv) :
    disable_ecu { args with verify_silence_addrs := some [] } env =
      disable_ecu { args with verify_silence_addrs := none } env ∧
    (disable_ecu { args with verify_silence_addrs := some [] } env).2.all
      (noVerifySleepDefault args) = true := by
  constructor
  · exact disableLoop_congr _ _ env (runAttempt_vsa_empty args) args.retry 0
  · exact disableLoop_all_events _ env _ (runAttempt_vsa_empty_events args) _ 0
